import Mathlib

/-!
Verification of the configuration-editing and launcher subsystem of
`src/main.py` (a PySide6 desktop launcher GUI).

The development shallowly embeds the Python code: YAML/JSON values become the
inductive type `Value`, Python `dict`s become ordered association lists with
Python-dict insert/lookup semantics, Qt widget state becomes the `FieldState`
type (one constructor per `field_type` tag stored in `self.fields`), and
fallible Python code (conversions such as `int(...)` that can raise) returns
`Except`.  Machine floats are modelled as rationals; the spin-box clamping and
decimal rounding performed by the Qt widgets is modelled explicitly.
-/

/-- A Python value as produced by `yaml.safe_load` / `json.load`: the scalar
kinds the config documents use, plus lists and (ordered) string-keyed dicts. -/
inductive Value where
  | null : Value
  | bool (b : Bool) : Value
  | int (n : Int) : Value
  | float (q : Rat) : Value
  | str (s : String) : Value
  | list (l : List Value) : Value
  | dict (d : List (String × Value)) : Value

/-- First-match lookup in an association list (Python `d[k]` / `k in d`;
Python dicts have unique keys, so first-match agrees with dict lookup). -/
def pyLookup {α : Type} : List (String × α) → String → Option α
  | [], _ => none
  | (k, v) :: rest, key => if k = key then some v else pyLookup rest key

/-- Python `d[k] = v`: replace the (unique) existing binding in place, else
append the new binding at the end — Python dicts keep insertion order. -/
def pyDictInsert {α : Type} : List (String × α) → String → α → List (String × α)
  | [], key, v => [(key, v)]
  | (k, w) :: rest, key, v =>
    if k = key then (key, v) :: rest else (k, w) :: pyDictInsert rest key v

/-- Python `del d[k]`. -/
def pyDictRemove {α : Type} (d : List (String × α)) (key : String) :
    List (String × α) :=
  d.filter (fun kv => decide (kv.1 ≠ key))

/-- Python `isinstance(v, dict)`. -/
def pyIsDict : Value → Bool
  | .dict _ => true
  | _ => false

/-- Python `isinstance(v, list)`. -/
def pyIsList : Value → Bool
  | .list _ => true
  | _ => false

/-- Python `isinstance(v, bool)`. -/
def pyIsBool : Value → Bool
  | .bool _ => true
  | _ => false

/-- Python `isinstance(v, int)`.  Crucially, Python `bool` is a subclass of
`int`, so this is true on booleans as well — the source guards its numeric
branch with `not isinstance(value, bool)` for exactly this reason. -/
def pyIsInstInt : Value → Bool
  | .int _ => true
  | .bool _ => true
  | _ => false

/-- Python `isinstance(v, float)`. -/
def pyIsInstFloat : Value → Bool
  | .float _ => true
  | _ => false

/-- Python `isinstance(v, str)`. -/
def pyIsStr : Value → Bool
  | .str _ => true
  | _ => false

/-- Python truthiness `bool(v)` for the modelled value kinds. -/
def pyBool : Value → Bool
  | .null => false
  | .bool b => b
  | .int n => decide (n ≠ 0)
  | .float q => decide (q ≠ 0)
  | .str s => decide (s ≠ "")
  | .list l => !l.isEmpty
  | .dict d => !d.isEmpty

/-- Numeric view of a value: Python compares `bool`, `int` and `float`
numerically (`True == 1`, `1 == 1.0`). -/
def pyNumView : Value → Option Rat
  | .bool b => some (if b then 1 else 0)
  | .int n => some (n : Rat)
  | .float q => some q
  | _ => none

mutual
/-- Python `==` on the modelled values: numbers compare numerically across
`bool`/`int`/`float`, strings by content, lists elementwise, dicts by
key set and per-key value equality (order-insensitively), `None` only to
`None`; values of unrelated kinds are unequal. -/
def pyEq : Value → Value → Bool
  | .str s, .str t => s = t
  | .list xs, .list ys => pyEqList xs ys
  | .dict d, .dict e => d.length = e.length && pyEqDict d e
  | .null, .null => true
  | a, b =>
    match pyNumView a, pyNumView b with
    | some x, some y => x = y
    | _, _ => false

def pyEqList : List Value → List Value → Bool
  | [], [] => true
  | x :: xs, y :: ys => pyEq x y && pyEqList xs ys
  | _, _ => false

def pyEqDict : List (String × Value) → List (String × Value) → Bool
  | [], _ => true
  | (k, v) :: rest, e =>
    (match pyLookup e k with
     | some w => pyEq v w
     | none => false) && pyEqDict rest e
end

/-- Decimal rendering of a rational that models CPython `repr` of a float for
the exactly-representable decimals the GUI manipulates: integral values render
as `n.0`, other values as the shortest decimal expansion when the denominator
divides a power of ten.  (Floats whose shortest repr needs more than 20
digits are outside the fragment exercised by the dialogs.) -/
def ratPyRepr (q : Rat) : String :=
  if q.den = 1 then toString q.num ++ ".0"
  else
    let rec findExp : Nat → Option Nat
      | 0 => none
      | n + 1 => if (q * (10 : Rat) ^ (21 - (n + 1))).den = 1 then
                   match findExp n with
                   | some m => some m
                   | none => some (21 - (n + 1))
                 else findExp n
    match findExp 21 with
    | some k =>
      let m : Int := (q * (10 : Rat) ^ k).num
      let sign := if m < 0 then "-" else ""
      let a := m.natAbs
      let ip := a / 10 ^ k
      let fp := a % 10 ^ k
      let fps := toString fp
      let pad := String.mk (List.replicate (k - fps.length) '0')
      sign ++ toString ip ++ "." ++ pad ++ fps
    | none => toString q.num ++ "/" ++ toString q.den

mutual
/-- Python `repr` of a value (used by `str` on containers). -/
def pyRepr : Value → String
  | .null => "None"
  | .bool true => "True"
  | .bool false => "False"
  | .int n => toString n
  | .float q => ratPyRepr q
  | .str s => "\x27" ++ s ++ "\x27"
  | .list l => "[" ++ pyReprList l ++ "]"
  | .dict d => "\x7b" ++ pyReprDict d ++ "\x7d"

def pyReprList : List Value → String
  | [] => ""
  | [v] => pyRepr v
  | v :: rest => pyRepr v ++ ", " ++ pyReprList rest

def pyReprDict : List (String × Value) → String
  | [] => ""
  | [(k, v)] => "\x27" ++ k ++ "\x27: " ++ pyRepr v
  | (k, v) :: rest => "\x27" ++ k ++ "\x27: " ++ pyRepr v ++ ", " ++ pyReprDict rest
end

/-- Python `str(v)`: the identity on strings and `repr` on everything else
(`str` and `repr` agree on `None`, booleans, numbers, lists and dicts). -/
def pyStr : Value → String
  | .str s => s
  | v => pyRepr v

/-- Whitespace recognised while parsing flow-style YAML. -/
def isWsChar (c : Char) : Bool := c = ' ' || c = '\t' || c = '\n' || c = '\r'

/-- Drop leading whitespace. -/
def skipWs : List Char → List Char
  | [] => []
  | c :: cs => if isWsChar c then skipWs cs else c :: cs

/-- Python `s.strip()`: leading and trailing whitespace removed. -/
def pyStrip (s : String) : String :=
  String.mk ((skipWs (skipWs s.toList).reverse).reverse)

/-- Truncation toward zero, the behaviour of Python `int()` on a float. -/
def pyTrunc (q : Rat) : Int := if 0 ≤ q then q.floor else -(-q).floor

/-- Digits of a decimal numeral to a natural number (`none` on the empty or a
non-digit list). -/
def digitsToNat : List Char → Option Nat
  | [] => none
  | cs => cs.foldl (fun acc c =>
      match acc with
      | none => none
      | some n => if c.isDigit then some (n * 10 + (c.toNat - 48)) else none)
      (some 0)

/-- Python `int(s)` on a string: optional sign followed by decimal digits
(surrounding whitespace stripped; other numeral forms are outside the
fragment the GUI exercises). -/
def parseIntStr (s : String) : Option Int :=
  match (pyStrip s).toList with
  | '-' :: cs => (digitsToNat cs).map (fun n => -(n : Int))
  | '+' :: cs => (digitsToNat cs).map (fun n => (n : Int))
  | cs => (digitsToNat cs).map (fun n => (n : Int))

/-- Python `float(s)` on a string: optional sign, integer part, optional
fractional part (exponent notation is outside the exercised fragment). -/
def parseFloatStr (s : String) : Option Rat :=
  let core : List Char → Option Rat := fun cs =>
    let ip := cs.takeWhile Char.isDigit
    let rest := cs.dropWhile Char.isDigit
    match rest with
    | [] => (digitsToNat ip).map (fun n => (n : Rat))
    | '.' :: fp =>
      if fp.all Char.isDigit ∧ (ip ≠ [] ∨ fp ≠ []) then
        let ipn : Nat := (digitsToNat ip).getD 0
        let fpn : Nat := (digitsToNat fp).getD 0
        some ((ipn : Rat) + (fpn : Rat) / (10 : Rat) ^ fp.length)
      else none
    | _ => none
  match (pyStrip s).toList with
  | '-' :: cs => (core cs).map (fun q => -q)
  | '+' :: cs => core cs
  | cs => core cs

/-- Python `int(v)`: booleans become 0/1, floats truncate toward zero, numeric
strings parse; anything else raises. -/
def py_int : Value → Except String Int
  | .bool b => .ok (if b then 1 else 0)
  | .int n => .ok n
  | .float q => .ok (pyTrunc q)
  | .str s =>
    match parseIntStr s with
    | some n => .ok n
    | none => .error "ValueError: invalid literal for int()"
  | _ => .error "TypeError: int() argument"

/-- Python `float(v)`. -/
def py_float : Value → Except String Rat
  | .bool b => .ok (if b then 1 else 0)
  | .int n => .ok (n : Rat)
  | .float q => .ok q
  | .str s =>
    match parseFloatStr s with
    | some q => .ok q
    | none => .error "ValueError: could not convert string to float"
  | _ => .error "TypeError: float() argument"

/-- `QSpinBox.setValue` with the range set at `src/main.py:259`: values are
clamped to the 32-bit signed range. -/
def spinSetValue (n : Int) : Int := max (-2147483648) (min 2147483647 n)

/-- `QDoubleSpinBox.setValue` with the range and precision set at
`src/main.py:254-255`: clamped to ±1e10 and rounded to 6 decimals. -/
def dspinSetValue (q : Rat) : Rat :=
  (round ((max (-((10 : Rat) ^ 10)) (min ((10 : Rat) ^ 10) q)) * 1000000) : Int) / 1000000

/-- Worker for `splitDot`. -/
def splitDotGo : List Char → List Char → List String
  | [], acc => [String.mk acc.reverse]
  | c :: cs, acc =>
    if c = '.' then String.mk acc.reverse :: splitDotGo cs [] else splitDotGo cs (c :: acc)

/-- Python `s.split(".")`. -/
def splitDot (s : String) : List String := splitDotGo s.toList []

/-- Python `".".join(l)`. -/
def joinDot : List String → String
  | [] => ""
  | [s] => s
  | s :: rest => s ++ "." ++ joinDot rest

/-- YAML 1.1 boolean scalars recognised by `yaml.safe_load`. -/
def yamlTrueWords : List String :=
  ["true", "True", "TRUE", "yes", "Yes", "YES", "on", "On", "ON"]

/-- YAML 1.1 false scalars. -/
def yamlFalseWords : List String :=
  ["false", "False", "FALSE", "no", "No", "NO", "off", "Off", "OFF"]

/-- YAML null scalars. -/
def yamlNullWords : List String := ["null", "Null", "NULL", "~"]

/-- Resolution of a plain YAML scalar token to a typed value. -/
def resolveScalar (t : String) : Value :=
  if yamlTrueWords.contains t then .bool true
  else if yamlFalseWords.contains t then .bool false
  else if yamlNullWords.contains t then .null
  else
    match parseIntStr t with
    | some n => .int n
    | none =>
      match parseFloatStr t with
      | some q => .float q
      | none => .str t

mutual
/-- Items of a flow sequence after its `[`, up to and beyond the closing `]`
(trailing commas are permitted, as in YAML). -/
def parseFlowItems : Nat → List Char → Option (List Value × List Char)
  | 0, _ => none
  | fuel + 1, cs =>
    match skipWs cs with
    | ']' :: rest => some ([], rest)
    | cs' =>
      match parseFlowItem fuel cs' with
      | none => none
      | some (v, cs'') =>
        match skipWs cs'' with
        | ',' :: rest => (parseFlowItems fuel rest).map (fun vr => (v :: vr.1, vr.2))
        | ']' :: rest => some ([v], rest)
        | _ => none

/-- One item of a flow sequence: a nested sequence or a plain scalar. -/
def parseFlowItem : Nat → List Char → Option (Value × List Char)
  | 0, _ => none
  | fuel + 1, cs =>
    match skipWs cs with
    | '[' :: rest => (parseFlowItems fuel rest).map (fun vr => (Value.list vr.1, vr.2))
    | cs' =>
      let stop : Char → Bool := fun c => c = ',' || c = ']' || c = '['
      let tok := pyStrip (String.mk (cs'.takeWhile (fun c => !stop c)))
      if tok = "" then none else some (resolveScalar tok, cs'.dropWhile (fun c => !stop c))
end

/-- `yaml.safe_load` restricted to flow-style sequences of plain scalars and
nested flow sequences — the only document shape the dialog ever parses, since
the argument is always `"[" + text + "]"` (src/main.py:346).  `none` models a
raised `YAMLError`. -/
def yaml_safe_load_flow (s : String) : Option Value :=
  match skipWs s.toList with
  | '[' :: rest =>
    match parseFlowItems (2 * s.length + 4) rest with
    | some (vs, r) => if (skipWs r).isEmpty then some (.list vs) else none
    | none => none
  | _ => none

/-- The per-field state kept in `self.fields[path_str] = (field_type, widget,
default_value)` (src/main.py:224,243,274,297): the `field_type` tag determines
which widget read/write methods are used, so it is fused with the widget's
current state; the third component is the recorded default. -/
inductive FieldState where
  | bool (checked : Bool) (dflt : Value) : FieldState
  | int (v : Int) (dflt : Value) : FieldState
  | float (v : Rat) (dflt : Value) : FieldState
  | str (text : String) (dflt : Value) : FieldState
  | list (text : String) (dflt : Value) : FieldState

/-- The recorded `default_value` of a field. -/
def FieldState.dfltVal : FieldState → Value
  | .bool _ d => d
  | .int _ d => d
  | .float _ d => d
  | .str _ d => d
  | .list _ d => d

/-- The reserved-key check at src/main.py:195. -/
def reservedKey (k : String) : Bool := k = "defaults" || k = "_self_"

/-- `_get_nested_value` (src/main.py:299-306): walk a nested dict along a
path, `none` when some segment is absent or an intermediate is not a dict. -/
def get_nested_value : Value → List String → Option Value
  | v, [] => some v
  | v, key :: rest =>
    match v with
    | .dict d =>
      match pyLookup d key with
      | some v' => get_nested_value v' rest
      | none => none
    | _ => none

/-- The leaf branches of `_build_config_ui` (src/main.py:207-297), in source
order: list, bool, numeric (float/int), str; a value matching none of them
(e.g. `None`) falls through and produces no field.  `cached` is
`_get_nested_value(overrides, current_path)`; `none` is Python `None`, and the
presence test in the source is `cached_value is not None`. -/
def build_leaf_field (value : Value) (cached : Option Value) :
    Except String (Option FieldState) :=
  if pyIsList value then
    let text := match cached with
      | some c => pyStr c
      | none => pyStr value
    .ok (some (.list text value))
  else if pyIsBool value then
    let checked := match cached with
      | some c => pyBool c
      | none => pyBool value
    .ok (some (.bool checked value))
  else if (pyIsInstInt value || pyIsInstFloat value) && !pyIsBool value then
    if pyIsInstFloat value then
      match (match cached with
             | some c => py_float c
             | none => py_float value) with
      | .error e => .error e
      | .ok q => .ok (some (.float (dspinSetValue q) value))
    else
      match (match cached with
             | some c => py_int c
             | none => py_int value) with
      | .error e => .error e
      | .ok n => .ok (some (.int (spinSetValue n) value))
  else if pyIsStr value then
    let text := match cached with
      | some c => pyStr c
      | none => pyStr value
    .ok (some (.str text value))
  else
    .ok none

mutual
/-- `_build_config_ui` (src/main.py:188-297): depth-first traversal of the
base config in insertion order, skipping reserved keys, recursing into nested
dicts, and inserting one `FieldState` into `self.fields` (keyed by the
dot-joined path) per leaf.  `overrides` stays the top-level cached override
document throughout the recursion; a raised conversion error propagates. -/
def build_config_ui : List (String × Value) → Value → List String →
    List (String × FieldState) → Except String (List (String × FieldState))
  | [], _, _, fields => .ok fields
  | (key, value) :: rest, overrides, path, fields =>
    if reservedKey key then build_config_ui rest overrides path fields
    else
      match build_config_entry key value overrides path fields with
      | .error e => .error e
      | .ok fields' => build_config_ui rest overrides path fields'

/-- One key of the traversal: nested dicts recurse (no descriptor for the
group itself), anything else goes through the leaf branches. -/
def build_config_entry : String → Value → Value → List String →
    List (String × FieldState) → Except String (List (String × FieldState))
  | key, .dict d, overrides, path, fields => build_config_ui d overrides (path ++ [key]) fields
  | key, value, overrides, path, fields =>
    match build_leaf_field value (get_nested_value overrides (path ++ [key])) with
    | .error e => .error e
    | .ok none => .ok fields
    | .ok (some st) => .ok (pyDictInsert fields (joinDot (path ++ [key])) st)
end

/-- `_set_nested_value` (src/main.py:308-315): walk/auto-create intermediate
dicts and set the final key.  Stepping through an existing non-dict value
raises in Python (`TypeError`), modelled as `.error`. -/
def set_nested_value : List (String × Value) → List String → Value →
    Except String (List (String × Value))
  | d, [key], v => .ok (pyDictInsert d key v)
  | d, key :: rest, v =>
    match pyLookup d key with
    | none =>
      match set_nested_value [] rest v with
      | .ok sub => .ok (pyDictInsert d key (.dict sub))
      | .error e => .error e
    | some (.dict sub) =>
      match set_nested_value sub rest v with
      | .ok sub' => .ok (pyDictInsert d key (.dict sub'))
      | .error e => .error e
    | some _ => .error "TypeError: intermediate value is not a dict"
  | _, [], _ => .error "IndexError: empty path"

/-- One field of `reset_to_defaults` (src/main.py:317-325): write the recorded
default back into the widget (`setChecked` / `setValue` / `setText(str(...))`,
with the widgets' clamping and rounding).  A default of a kind the widget
setter rejects raises, modelled as `.error`; fields produced by reflection
always match. -/
def reset_field : FieldState → Except String FieldState
  | .bool _ d =>
    match d with
    | .bool b => .ok (.bool b d)
    | _ => .error "TypeError: setChecked"
  | .int _ d =>
    match d with
    | .int n => .ok (.int (spinSetValue n) d)
    | _ => .error "TypeError: setValue"
  | .float _ d =>
    match d with
    | .float q => .ok (.float (dspinSetValue q) d)
    | .int n => .ok (.float (dspinSetValue (n : Rat)) d)
    | _ => .error "TypeError: setValue"
  | .str _ d => .ok (.str (pyStr d) d)
  | .list _ d => .ok (.list (pyStr d) d)

/-- `reset_to_defaults` (src/main.py:317-325) over the whole field map. -/
def reset_to_defaults : List (String × FieldState) →
    Except String (List (String × FieldState))
  | [] => .ok []
  | (p, st) :: rest =>
    match reset_field st with
    | .error e => .error e
    | .ok st' =>
      match reset_to_defaults rest with
      | .ok rest' => .ok ((p, st') :: rest')
      | .error e => .error e

/-- The current value read back from a field by `get_overrides`
(src/main.py:334-348): widget reads for the scalar kinds; for a list field the
stripped text is parsed as `yaml.safe_load("[" + text + "]")`, an empty text
falls back to the default, and a parse failure keeps the raw text verbatim. -/
def field_value : FieldState → Value
  | .bool c _ => .bool c
  | .int n _ => .int n
  | .float q _ => .float q
  | .str t _ => .str t
  | .list t d =>
    let text := pyStrip t
    if text = "" then d
    else
      match yaml_safe_load_flow ("[" ++ text ++ "]") with
      | some v => v
      | none => .str text

/-- `get_overrides` (src/main.py:327-354): read every field back, compare with
its default by Python `==`, and set the differing ones into a sparse nested
dict at the split path. -/
def get_overrides : List (String × FieldState) → List (String × Value) →
    Except String (List (String × Value))
  | [], overrides => .ok overrides
  | (pathStr, st) :: rest, overrides =>
    let value := field_value st
    if pyEq value st.dfltVal then get_overrides rest overrides
    else
      match set_nested_value overrides (splitDot pathStr) value with
      | .ok overrides' => get_overrides rest overrides'
      | .error e => .error e

/-- The base-config load in `ConfigEditorDialog.__init__` (src/main.py:140-143):
`original_config = {}`, overwritten by `yaml.safe_load` only when the file
exists.  `fs` abstracts the filesystem (path to contents, `none` = missing
file) and `parseYaml` the YAML parser (`.error` models a raised `YAMLError`,
which the constructor does not catch, so it propagates). -/
def load_original_config (fs : String → Option String)
    (parseYaml : String → Except String Value) (config_path : String) :
    Except String Value :=
  match fs config_path with
  | none => .ok (.dict [])
  | some contents => parseYaml contents

/-- `save_cached_config` (src/main.py:110-126).  `readResult` abstracts the
cache-file read: `none` = the file does not exist, `some (.error e)` = it
exists but `json.load` raised (the bare `except: pass` keeps the empty cache),
`some (.ok c)` = the parsed artifact.  `write` abstracts the final
`json.dump`; its failure is caught and printed (src/main.py:125-126), never
raised.  Returns the artifact handed to the write and the printed log. -/
def save_cached_config
    (readResult : Option (Except String (List (String × Value))))
    (key : String) (config : Value)
    (write : List (String × Value) → Except String Unit) :
    List (String × Value) × List String :=
  let cache : List (String × Value) :=
    match readResult with
    | none => []
    | some (.error _) => []
    | some (.ok c) => c
  let cache' := pyDictInsert cache key config
  match write cache' with
  | .ok _ => (cache', [])
  | .error e => (cache', ["Failed to save config cache: " ++ e])

/-- The two variables stripped before spawning a terminal (src/main.py:641). -/
def vars_to_clean : List String := ["LD_LIBRARY_PATH", "LD_PRELOAD"]

/-- One iteration of the cleanup loop at src/main.py:642-644:
`if var in env: del env[var]`. -/
def removeIfPresent (env : List (String × String)) (var : String) :
    List (String × String) :=
  if (pyLookup env var).isSome then pyDictRemove env var else env

/-- The environment cleanup at src/main.py:640-644: a copy of `os.environ`
with each variable of `vars_to_clean` deleted when present. -/
def cleanSpawnEnv (environ : List (String × String)) : List (String × String) :=
  vars_to_clean.foldl removeIfPresent environ

/-- The arguments of the `subprocess.Popen` call at src/main.py:646. -/
structure PopenCall where
  args : List String
  env : List (String × String)
  start_new_session : Bool

/-- The spawn performed by `MainWindow._run_script_in_new_terminal`
(src/main.py:638-646): the found terminal's command template with the
assembled bash command line appended, the cleaned environment, and
`start_new_session=True`. -/
def run_script_spawn (terminal_cmd : List String) (full_command : String)
    (environ : List (String × String)) : PopenCall :=
  { args := terminal_cmd ++ [full_command]
    env := cleanSpawnEnv environ
    start_new_session := true }

/-- Phase of the supervised child process. -/
inductive ProcPhase where
  | notStarted : ProcPhase
  | running : ProcPhase
  | exited (code : Int) : ProcPhase
  deriving DecidableEq

/-- Modelled from the spec: the Process Supervisor state machine of §4.5.
`src/` contains no supervisor (scripts are only spawned detached in a
terminal), so the state is taken from the spec: the phase, the orthogonal
`killedFlag`, the pending forced-kill deadline of the 1-second grace timer,
and counters of terminate signals and forced kills sent so far. -/
structure SupervisorState where
  phase : ProcPhase
  killedFlag : Bool
  graceDeadline : Option Nat
  termSignals : Nat
  forcedKills : Nat

/-- Modelled from the spec: `stop()` — "no-op if not Running; otherwise sets
killedFlag, sends an immediate terminate signal, and schedules a forced kill
after a fixed 1-second grace period".  `now` is the current time in
seconds. -/
def supervisorStop (now : Nat) (s : SupervisorState) : SupervisorState :=
  if s.phase = .running then
    { s with killedFlag := true, termSignals := s.termSignals + 1,
             graceDeadline := some (now + 1) }
  else s

/-- Modelled from the spec: the child's exit callback `onExit`. -/
def supervisorOnExit (code : Int) (s : SupervisorState) : SupervisorState :=
  { s with phase := .exited code }

/-- Modelled from the spec: the single-shot grace timer firing — a forced
kill is issued only "if the process has not exited by then", and the timer is
consumed either way. -/
def supervisorGraceFire (s : SupervisorState) : SupervisorState :=
  match s.graceDeadline with
  | none => s
  | some _ =>
    if s.phase = .running then
      { s with forcedKills := s.forcedKills + 1, graceDeadline := none }
    else { s with graceDeadline := none }

/-- The launch-parameter state of `DatasetGeneratorDialog`: the two spin
boxes, the total-samples spin box and the two check boxes read by
`get_parameters` (src/main.py:471-488). -/
structure DatasetParams where
  n_value : Int
  e_value : Int
  total_samples_value : Int
  all_cpus_checked : Bool
  a_checked : Bool

/-- A value stored in the parameter mapping: a flag or a number. -/
inductive ParamValue where
  | bool (b : Bool) : ParamValue
  | int (n : Int) : ParamValue

/-- `DatasetGeneratorDialog.get_parameters` (src/main.py:471-488). -/
def get_parameters (st : DatasetParams) : List (String × ParamValue) :=
  let params : List (String × ParamValue) := []
  let params :=
    if st.all_cpus_checked then pyDictInsert params "--all_cpus" (.bool true)
    else pyDictInsert params "-n" (.int st.n_value)
  let params :=
    if st.total_samples_value > 0 then
      pyDictInsert params "--total_samples" (.int st.total_samples_value)
    else pyDictInsert params "-e" (.int st.e_value)
  let params :=
    if st.a_checked then pyDictInsert params "-a" (.bool true) else params
  params

/-- The `field_type` tag of a field. -/
inductive FieldKind where
  | bool : FieldKind
  | int : FieldKind
  | float : FieldKind
  | str : FieldKind
  | list : FieldKind
  deriving DecidableEq

/-- Kind of a `FieldState`. -/
def FieldState.kind : FieldState → FieldKind
  | .bool _ _ => .bool
  | .int _ _ => .int
  | .float _ _ => .float
  | .str _ _ => .str
  | .list _ _ => .list

/-- A value that the reflection turns into an editable field: anything except
a nested dict (which recurses) and `None` (which matches no branch). -/
def isLeafValue : Value → Bool
  | .dict _ => false
  | .null => false
  | _ => true

mutual
/-- First-occurrence resolution of a key path inside a base document: the
value reached by looking up each segment through nested dicts. -/
def config_leaf_at : List (String × Value) → List String → Option Value
  | _, [] => none
  | [], _ :: _ => none
  | (k, v) :: rest, key :: q =>
    if k = key then value_leaf_at v q else config_leaf_at rest (key :: q)

/-- Resolution of the remaining path below a value. -/
def value_leaf_at : Value → List String → Option Value
  | v, [] => some v
  | .dict d, q => config_leaf_at d q
  | _, _ :: _ => none
end

mutual
/-- The dot-joined paths at which the traversal of `_build_config_ui` can
insert a field: every non-reserved key path ending in a non-dict, non-null
value, in traversal order. -/
def emitted_paths : List (String × Value) → List String → List String
  | [], _ => []
  | (key, value) :: rest, path =>
    if reservedKey key then emitted_paths rest path
    else emitted_paths_val key value path ++ emitted_paths rest path

/-- Paths contributed by a single key. -/
def emitted_paths_val : String → Value → List String → List String
  | key, .dict d, path => emitted_paths d (path ++ [key])
  | _, .null, _ => []
  | key, _, path => [joinDot (path ++ [key])]
end

mutual
/-- A base document with every reserved key (at any dict depth) removed. -/
def stripReservedDoc : List (String × Value) → List (String × Value)
  | [] => []
  | (k, v) :: rest =>
    if reservedKey k then stripReservedDoc rest
    else (k, stripReservedVal v) :: stripReservedDoc rest

/-- Strip reserved keys below a value (lists are leaves for the traversal and
are left untouched). -/
def stripReservedVal : Value → Value
  | .dict d => .dict (stripReservedDoc d)
  | v => v
end

/-- Current widget state read back as the value it displays, per kind: the
check state, the spin value, the text for a string field; a list field
displays `str` of the stored list. -/
def representsValue : FieldState → Value → Bool
  | .bool c _, .bool b => c = b
  | .int n _, .int m => n = m
  | .float q _, .float r => q = r
  | .str t _, .str s => t = s
  | .list t _, .list l => t = pyStr (.list l)
  | _, _ => false

/-- Same constructor kind (the OverrideDocument invariant of spec §3: an
override value is structurally identical in kind to the base value). -/
def sameValueKind : Value → Value → Bool
  | .null, .null => true
  | .bool _, .bool _ => true
  | .int _, .int _ => true
  | .float _, .float _ => true
  | .str _, .str _ => true
  | .list _, .list _ => true
  | .dict _, .dict _ => true
  | _, _ => false

/-- A numeric value the editing widgets can hold exactly: integers within the
32-bit spin-box range, floats within ±1e10 with at most six decimals (the
`QDoubleSpinBox` precision); non-numeric kinds are unconstrained. -/
def inWidgetRange : Value → Bool
  | .int n => decide (-2147483648 ≤ n ∧ n ≤ 2147483647)
  | .float q => decide (-((10 : Rat) ^ 10) ≤ q ∧ q ≤ (10 : Rat) ^ 10 ∧ (q * 1000000).den = 1)
  | _ => true


theorem pyLookup_pyDictInsert_self {α : Type} (d : List (String × α)) (k : String) (v : α) :
    pyLookup (pyDictInsert d k v) k = some v := by
  induction d with
  | nil => simp [pyDictInsert, pyLookup]
  | cons hd tl ih =>
    obtain ⟨k₁, v₁⟩ := hd
    by_cases h : k₁ = k
    · simp [pyDictInsert, pyLookup, h]
    · simp [pyDictInsert, pyLookup, h, ih]

theorem pyLookup_pyDictInsert_ne {α : Type} (d : List (String × α)) (k k' : String) (v : α)
    (h : k' ≠ k) : pyLookup (pyDictInsert d k v) k' = pyLookup d k' := by
  induction d with
  | nil => simp [pyDictInsert, pyLookup, Ne.symm h]
  | cons hd tl ih =>
    obtain ⟨k₁, v₁⟩ := hd
    by_cases h₁ : k₁ = k
    · subst h₁
      simp [pyDictInsert, pyLookup, Ne.symm h]
    · by_cases h₂ : k₁ = k'
      · subst h₂
        simp [pyDictInsert, pyLookup, h₁]
      · simp [pyDictInsert, pyLookup, h₁, h₂, ih]

theorem mem_pyDictInsert {α : Type} (d : List (String × α)) (k : String) (v : α)
    (x : String × α) (hx : x ∈ pyDictInsert d k v) : x ∈ d ∨ x = (k, v) := by
  induction d with
  | nil => simpa [pyDictInsert] using hx
  | cons hd tl ih =>
    obtain ⟨k₁, v₁⟩ := hd
    by_cases h : k₁ = k
    · rw [pyDictInsert, if_pos h] at hx
      rcases List.mem_cons.mp hx with h₁ | h₁
      · right; exact h₁
      · left; exact List.mem_cons_of_mem _ h₁
    · rw [pyDictInsert, if_neg h] at hx
      rcases List.mem_cons.mp hx with h₁ | h₁
      · left; exact h₁ ▸ List.mem_cons_self _ _
      · rcases ih h₁ with h₂ | h₂
        · left; exact List.mem_cons_of_mem _ h₂
        · right; exact h₂

theorem pyLookup_pyDictRemove_self {α : Type} (d : List (String × α)) (k : String) :
    pyLookup (pyDictRemove d k) k = none := by
  induction d with
  | nil => simp [pyDictRemove, pyLookup]
  | cons hd tl ih =>
    obtain ⟨k₁, v₁⟩ := hd
    by_cases h : k₁ = k
    · subst h
      simpa [pyDictRemove] using ih
    · simpa [pyDictRemove, pyLookup, h] using ih

theorem pyLookup_pyDictRemove_ne {α : Type} (d : List (String × α)) (k k' : String)
    (h : k' ≠ k) : pyLookup (pyDictRemove d k) k' = pyLookup d k' := by
  induction d with
  | nil => simp [pyDictRemove, pyLookup]
  | cons hd tl ih =>
    obtain ⟨k₁, v₁⟩ := hd
    by_cases h₁ : k₁ = k
    · subst h₁
      simpa [pyDictRemove, pyLookup, Ne.symm h] using ih
    · have ih' : pyLookup (List.filter (fun kv => !decide (kv.1 = k)) tl) k' = pyLookup tl k' := by
        simpa [pyDictRemove] using ih
      simp [pyDictRemove, pyLookup, h₁, ih']

/-- C3: list-field round trip through extraction: a list field with default
`[1, 2, 3]` whose editable text the user set to `"1, 2, 4"` is parsed by
`get_overrides` as the flow-style sequence `[1, 2, 4]`, differs from the
default, and is emitted as the override at that field's path. -/
theorem list_field_round_trip :
    get_overrides
        [("vals", FieldState.list "1, 2, 4" (Value.list [.int 1, .int 2, .int 3]))] [] =
      .ok [("vals", Value.list [.int 1, .int 2, .int 4])] := rfl

/-- C1 fails on the code for list fields: reflecting the base document
`{"nums": [1, 2, 3]}` with no overrides, pressing "Reset to Defaults" (which
writes `str([1, 2, 3]) = "[1, 2, 3]"` into the line edit) and then extracting
yields the non-empty override document `{"nums": [[1, 2, 3]]}`: the bracketed
reset text is wrapped in brackets again by `yaml.safe_load("[" + text + "]")`
and the resulting nested list differs from the default. -/
theorem reset_then_extract_nonempty_on_list_field :
    build_config_ui [("nums", Value.list [.int 1, .int 2, .int 3])] (.dict []) [] [] =
      .ok [("nums", FieldState.list "[1, 2, 3]" (Value.list [.int 1, .int 2, .int 3]))] ∧
    reset_to_defaults
        [("nums", FieldState.list "[1, 2, 3]" (Value.list [.int 1, .int 2, .int 3]))] =
      .ok [("nums", FieldState.list "[1, 2, 3]" (Value.list [.int 1, .int 2, .int 3]))] ∧
    get_overrides
        [("nums", FieldState.list "[1, 2, 3]" (Value.list [.int 1, .int 2, .int 3]))] [] =
      .ok [("nums", Value.list [Value.list [.int 1, .int 2, .int 3]])] ∧
    get_overrides
        [("nums", FieldState.list "[1, 2, 3]" (Value.list [.int 1, .int 2, .int 3]))] [] ≠
      .ok ([] : List (String × Value)) := by
  refine ⟨rfl, rfl, rfl, ?_⟩
  intro h
  rw [show get_overrides
        [("nums", FieldState.list "[1, 2, 3]" (Value.list [.int 1, .int 2, .int 3]))] [] =
      .ok [("nums", Value.list [Value.list [.int 1, .int 2, .int 3]])] from rfl] at h
  simp at h

/-- C6: the base-config load in `ConfigEditorDialog.__init__` returns an empty
document when the config file does not exist (missing config is not fatal),
and fails with the propagated parse error when the file exists but is not
valid structured data. -/
theorem load_original_config_missing_or_malformed
    (fs : String → Option String) (parseYaml : String → Except String Value)
    (path contents e : String) :
    (fs path = none → load_original_config fs parseYaml path = .ok (.dict [])) ∧
    (fs path = some contents → parseYaml contents = .error e →
      load_original_config fs parseYaml path = .error e) := by
  constructor
  · intro h
    simp [load_original_config, h]
  · intro h₁ h₂
    simp [load_original_config, h₁, h₂]

/-- Witness for C6 at a concrete missing file and a concrete malformed file. -/
theorem load_original_config_missing_or_malformed_witness :
    load_original_config (fun _ => none) (fun _ => .error "bad") "trainer.yaml" =
      .ok (.dict []) ∧
    load_original_config (fun _ => some "][") (fun _ => .error "bad") "trainer.yaml" =
      .error "bad" :=
  ⟨(load_original_config_missing_or_malformed (fun _ => none) (fun _ => .error "bad")
      "trainer.yaml" "" "bad").1 rfl,
   (load_original_config_missing_or_malformed (fun _ => some "][") (fun _ => .error "bad")
      "trainer.yaml" "][" "bad").2 rfl rfl⟩

/-- C7: `save_cached_config` with a readable cache artifact: the written
artifact maps the scope to the new document, leaves every other scope's entry
unchanged, and a failing write is only logged — the function still returns
normally with the updated artifact. -/
theorem save_cached_config_frame
    (old : List (String × Value)) (key : String) (config : Value)
    (write : List (String × Value) → Except String Unit) :
    pyLookup (save_cached_config (some (.ok old)) key config write).1 key = some config ∧
    (∀ k, k ≠ key →
      pyLookup (save_cached_config (some (.ok old)) key config write).1 k = pyLookup old k) ∧
    (∀ e, write (pyDictInsert old key config) = .error e →
      (save_cached_config (some (.ok old)) key config write).2 =
        ["Failed to save config cache: " ++ e]) := by
  have h1 : (save_cached_config (some (.ok old)) key config write).1 =
      pyDictInsert old key config := by
    unfold save_cached_config
    cases hw : write (pyDictInsert old key config) <;> simp [hw]
  refine ⟨?_, ?_, ?_⟩
  · rw [h1]
    exact pyLookup_pyDictInsert_self old key config
  · intro k hk
    rw [h1]
    exact pyLookup_pyDictInsert_ne old key k config hk
  · intro e he
    unfold save_cached_config
    simp [he]

/-- Witness for C7: a two-scope artifact, an update of one scope and a failing
write. -/
theorem save_cached_config_frame_witness :
    pyLookup (save_cached_config
        (some (.ok [("training_config", Value.dict []), ("prediction_config", Value.str "x")]))
        "training_config" (Value.dict [("a", Value.int 1)])
        (fun _ => .error "disk full")).1 "training_config" =
      some (Value.dict [("a", Value.int 1)]) ∧
    pyLookup (save_cached_config
        (some (.ok [("training_config", Value.dict []), ("prediction_config", Value.str "x")]))
        "training_config" (Value.dict [("a", Value.int 1)])
        (fun _ => .error "disk full")).1 "prediction_config" = some (Value.str "x") ∧
    (save_cached_config
        (some (.ok [("training_config", Value.dict []), ("prediction_config", Value.str "x")]))
        "training_config" (Value.dict [("a", Value.int 1)])
        (fun _ => .error "disk full")).2 = ["Failed to save config cache: " ++ "disk full"] :=
  ⟨(save_cached_config_frame
      [("training_config", Value.dict []), ("prediction_config", Value.str "x")]
      "training_config" (Value.dict [("a", Value.int 1)]) (fun _ => .error "disk full")).1,
   (save_cached_config_frame
      [("training_config", Value.dict []), ("prediction_config", Value.str "x")]
      "training_config" (Value.dict [("a", Value.int 1)]) (fun _ => .error "disk full")).2.1
      "prediction_config" (by simp),
   (save_cached_config_frame
      [("training_config", Value.dict []), ("prediction_config", Value.str "x")]
      "training_config" (Value.dict [("a", Value.int 1)]) (fun _ => .error "disk full")).2.2
      "disk full" rfl⟩

theorem pyLookup_removeIfPresent_self (env : List (String × String)) (var : String) :
    pyLookup (removeIfPresent env var) var = none := by
  unfold removeIfPresent
  by_cases h : (pyLookup env var).isSome
  · simp [h, pyLookup_pyDictRemove_self]
  · rw [if_neg h]
    exact Option.not_isSome_iff_eq_none.mp h

theorem pyLookup_removeIfPresent_ne (env : List (String × String)) (var k : String)
    (h : k ≠ var) : pyLookup (removeIfPresent env var) k = pyLookup env k := by
  unfold removeIfPresent
  by_cases hs : (pyLookup env var).isSome
  · simp [hs, pyLookup_pyDictRemove_ne env var k h]
  · rw [if_neg hs]

/-- C9: the environment handed to the spawned terminal process is the
launcher's environment with exactly `LD_LIBRARY_PATH` and `LD_PRELOAD`
removed (when present) and every other variable unchanged, and the child is
spawned detached in a new session (`start_new_session=True`). -/
theorem terminal_spawn_env_clean (terminal_cmd : List String) (full_command : String)
    (environ : List (String × String)) :
    pyLookup (run_script_spawn terminal_cmd full_command environ).env "LD_LIBRARY_PATH" =
      none ∧
    pyLookup (run_script_spawn terminal_cmd full_command environ).env "LD_PRELOAD" = none ∧
    (∀ k, k ≠ "LD_LIBRARY_PATH" → k ≠ "LD_PRELOAD" →
      pyLookup (run_script_spawn terminal_cmd full_command environ).env k =
        pyLookup environ k) ∧
    (run_script_spawn terminal_cmd full_command environ).start_new_session = true := by
  have henv : (run_script_spawn terminal_cmd full_command environ).env =
      removeIfPresent (removeIfPresent environ "LD_LIBRARY_PATH") "LD_PRELOAD" := by
    simp [run_script_spawn, cleanSpawnEnv, vars_to_clean]
  refine ⟨?_, ?_, ?_, rfl⟩
  · rw [henv, pyLookup_removeIfPresent_ne _ _ _ (by simp)]
    exact pyLookup_removeIfPresent_self environ "LD_LIBRARY_PATH"
  · rw [henv]
    exact pyLookup_removeIfPresent_self _ "LD_PRELOAD"
  · intro k h₁ h₂
    rw [henv, pyLookup_removeIfPresent_ne _ _ _ h₂, pyLookup_removeIfPresent_ne _ _ _ h₁]

/-- Witness for C9 at a concrete environment holding both stripped variables
and an unrelated one. -/
theorem terminal_spawn_env_clean_witness :
    pyLookup (run_script_spawn ["gnome-terminal", "--", "bash", "-c"] "echo hi"
        [("LD_LIBRARY_PATH", "/opt/lib"), ("HOME", "/root"), ("LD_PRELOAD", "x.so")]).env
      "LD_LIBRARY_PATH" = none ∧
    pyLookup (run_script_spawn ["gnome-terminal", "--", "bash", "-c"] "echo hi"
        [("LD_LIBRARY_PATH", "/opt/lib"), ("HOME", "/root"), ("LD_PRELOAD", "x.so")]).env
      "LD_PRELOAD" = none ∧
    pyLookup (run_script_spawn ["gnome-terminal", "--", "bash", "-c"] "echo hi"
        [("LD_LIBRARY_PATH", "/opt/lib"), ("HOME", "/root"), ("LD_PRELOAD", "x.so")]).env
      "HOME" = some "/root" ∧
    (run_script_spawn ["gnome-terminal", "--", "bash", "-c"] "echo hi"
        [("LD_LIBRARY_PATH", "/opt/lib"), ("HOME", "/root"), ("LD_PRELOAD", "x.so")]).start_new_session =
      true :=
  ⟨(terminal_spawn_env_clean ["gnome-terminal", "--", "bash", "-c"] "echo hi"
      [("LD_LIBRARY_PATH", "/opt/lib"), ("HOME", "/root"), ("LD_PRELOAD", "x.so")]).1,
   (terminal_spawn_env_clean ["gnome-terminal", "--", "bash", "-c"] "echo hi"
      [("LD_LIBRARY_PATH", "/opt/lib"), ("HOME", "/root"), ("LD_PRELOAD", "x.so")]).2.1,
   (terminal_spawn_env_clean ["gnome-terminal", "--", "bash", "-c"] "echo hi"
      [("LD_LIBRARY_PATH", "/opt/lib"), ("HOME", "/root"), ("LD_PRELOAD", "x.so")]).2.2.1
      "HOME" (by simp) (by simp),
   (terminal_spawn_env_clean ["gnome-terminal", "--", "bash", "-c"] "echo hi"
      [("LD_LIBRARY_PATH", "/opt/lib"), ("HOME", "/root"), ("LD_PRELOAD", "x.so")]).2.2.2⟩

/-- C8 (spec-modelled): `stop()` on a process that is not Running is a no-op
that raises no error; on a Running process it sets the killed flag, sends one
immediate terminate signal and schedules the forced kill at `now + 1`; when
the process has not exited by the deadline, the grace-timer firing issues
exactly one forced kill (the single-shot timer is consumed, so firing again
changes nothing); and when the process did exit before the deadline, no
forced kill is issued. -/
theorem supervisor_stop_contract :
    (∀ (now : Nat) (s : SupervisorState), s.phase ≠ .running →
      supervisorStop now s = s) ∧
    (∀ (now : Nat) (s : SupervisorState), s.phase = .running →
      (supervisorStop now s).killedFlag = true ∧
      (supervisorStop now s).termSignals = s.termSignals + 1 ∧
      (supervisorStop now s).graceDeadline = some (now + 1)) ∧
    (∀ (now : Nat) (s : SupervisorState), s.phase = .running →
      (supervisorGraceFire (supervisorStop now s)).forcedKills = s.forcedKills + 1 ∧
      (supervisorGraceFire (supervisorStop now s)).graceDeadline = none ∧
      supervisorGraceFire (supervisorGraceFire (supervisorStop now s)) =
        supervisorGraceFire (supervisorStop now s)) ∧
    (∀ (now : Nat) (s : SupervisorState) (code : Int), s.phase = .running →
      (supervisorGraceFire (supervisorOnExit code (supervisorStop now s))).forcedKills =
        s.forcedKills) := by
  refine ⟨?_, ?_, ?_, ?_⟩
  · intro now s h
    simp [supervisorStop, h]
  · intro now s h
    simp [supervisorStop, h]
  · intro now s h
    simp [supervisorStop, supervisorGraceFire, h]
  · intro now s code h
    simp [supervisorStop, supervisorOnExit, supervisorGraceFire, h]

/-- Witness for C8: a concrete NotStarted state (no-op) and a concrete
Running state (terminate, then exactly one forced kill at the deadline). -/
theorem supervisor_stop_contract_witness :
    supervisorStop 5 ⟨.notStarted, false, none, 0, 0⟩ = ⟨.notStarted, false, none, 0, 0⟩ ∧
    (supervisorStop 7 ⟨.running, false, none, 0, 0⟩).killedFlag = true ∧
    (supervisorStop 7 ⟨.running, false, none, 0, 0⟩).termSignals = 1 ∧
    (supervisorGraceFire (supervisorStop 7 ⟨.running, false, none, 0, 0⟩)).forcedKills = 1 ∧
    supervisorGraceFire (supervisorGraceFire (supervisorStop 7 ⟨.running, false, none, 0, 0⟩)) =
      supervisorGraceFire (supervisorStop 7 ⟨.running, false, none, 0, 0⟩) ∧
    (supervisorGraceFire (supervisorOnExit 0 (supervisorStop 7 ⟨.running, false, none, 0, 0⟩))).forcedKills =
      0 :=
  ⟨supervisor_stop_contract.1 5 ⟨.notStarted, false, none, 0, 0⟩ (by simp),
   (supervisor_stop_contract.2.1 7 ⟨.running, false, none, 0, 0⟩ rfl).1,
   (supervisor_stop_contract.2.1 7 ⟨.running, false, none, 0, 0⟩ rfl).2.1,
   (supervisor_stop_contract.2.2.1 7 ⟨.running, false, none, 0, 0⟩ rfl).1,
   (supervisor_stop_contract.2.2.1 7 ⟨.running, false, none, 0, 0⟩ rfl).2.2,
   supervisor_stop_contract.2.2.2 7 ⟨.running, false, none, 0, 0⟩ 0 rfl⟩

/-- C10: in every dialog state, `get_parameters` emits exactly one of
`--all_cpus` and `-n` (`--all_cpus` precisely when the all-CPUs box is
checked) and exactly one of `--total_samples` and `-e` (`--total_samples`
precisely when the total-samples spin box is above 0). -/
theorem get_parameters_exclusive_pairs (st : DatasetParams) :
    ((pyLookup (get_parameters st) "--all_cpus").isSome = st.all_cpus_checked) ∧
    ((pyLookup (get_parameters st) "-n").isSome = !st.all_cpus_checked) ∧
    ((pyLookup (get_parameters st) "--total_samples").isSome =
      decide (st.total_samples_value > 0)) ∧
    ((pyLookup (get_parameters st) "-e").isSome = !decide (st.total_samples_value > 0)) := by
  obtain ⟨n, e, ts, ac, a⟩ := st
  cases ac <;> by_cases hts : ts > 0 <;> cases a <;>
    simp [get_parameters, pyDictInsert, pyLookup, hts]

theorem build_leaf_field_null (c : Option Value) :
    build_leaf_field .null c = .ok none := rfl

theorem build_leaf_field_dict (d : List (String × Value)) (c : Option Value) :
    build_leaf_field (.dict d) c = .ok none := rfl

theorem build_leaf_field_list (l : List Value) (c : Option Value) :
    build_leaf_field (.list l) c =
      .ok (some (.list (match c with
        | some cv => pyStr cv
        | none => pyStr (.list l)) (.list l))) := by
  cases c <;> rfl

theorem build_leaf_field_bool (b : Bool) (c : Option Value) :
    build_leaf_field (.bool b) c =
      .ok (some (.bool (match c with
        | some cv => pyBool cv
        | none => b) (.bool b))) := by
  cases c <;> rfl

theorem build_leaf_field_int (n : Int) (c : Option Value) :
    build_leaf_field (.int n) c =
      (match (match c with | some cv => py_int cv | none => .ok n) with
       | .error e => .error e
       | .ok m => .ok (some (.int (spinSetValue m) (.int n)))) := by
  cases c <;> rfl

theorem build_leaf_field_float (q : Rat) (c : Option Value) :
    build_leaf_field (.float q) c =
      (match (match c with | some cv => py_float cv | none => .ok q) with
       | .error e => .error e
       | .ok r => .ok (some (.float (dspinSetValue r) (.float q)))) := by
  cases c <;> rfl

theorem build_leaf_field_str (s : String) (c : Option Value) :
    build_leaf_field (.str s) c =
      .ok (some (.str (match c with
        | some cv => pyStr cv
        | none => s) (.str s))) := by
  cases c <;> rfl

theorem build_config_entry_not_dict (key : String) (value ov : Value) (path : List String)
    (acc : List (String × FieldState)) (hnd : ∀ d, value = .dict d → False) :
    build_config_entry key value ov path acc =
      (match build_leaf_field value (get_nested_value ov (path ++ [key])) with
       | .error e => .error e
       | .ok none => .ok acc
       | .ok (some st) => .ok (pyDictInsert acc (joinDot (path ++ [key])) st)) := by
  cases value with
  | dict d => exact absurd rfl (hnd d)
  | null => rfl
  | bool b => rfl
  | int n => rfl
  | float q => rfl
  | str s => rfl
  | list l => rfl

theorem build_config_ui_stripReserved :
    ∀ (config : List (String × Value)) (ov : Value) (path : List String)
      (acc : List (String × FieldState)),
      build_config_ui (stripReservedDoc config) ov path acc =
        build_config_ui config ov path acc := by
  intro config ov path acc
  refine build_config_ui.induct
    (fun config ov path acc =>
      build_config_ui (stripReservedDoc config) ov path acc =
        build_config_ui config ov path acc)
    (fun key value ov path acc =>
      build_config_entry key (stripReservedVal value) ov path acc =
        build_config_entry key value ov path acc)
    ?_ ?_ ?_ ?_ ?_ ?_ ?_ ?_ config ov path acc
  · intro key d ov' path' acc' ih
    simpa [stripReservedVal, build_config_entry] using ih
  · intro key value ov' path' acc' hnd e hleaf
    have hsv : stripReservedVal value = value := by
      cases value with
      | dict d => exact absurd rfl (hnd d)
      | null => rfl
      | bool b => rfl
      | int n => rfl
      | float q => rfl
      | str s => rfl
      | list l => rfl
    rw [hsv]
  · intro key value ov' path' acc' hnd hleaf
    have hsv : stripReservedVal value = value := by
      cases value with
      | dict d => exact absurd rfl (hnd d)
      | null => rfl
      | bool b => rfl
      | int n => rfl
      | float q => rfl
      | str s => rfl
      | list l => rfl
    rw [hsv]
  · intro key value ov' path' acc' hnd st hleaf
    have hsv : stripReservedVal value = value := by
      cases value with
      | dict d => exact absurd rfl (hnd d)
      | null => rfl
      | bool b => rfl
      | int n => rfl
      | float q => rfl
      | str s => rfl
      | list l => rfl
    rw [hsv]
  · intro ov' path' acc'
    rfl
  · intro key value rest ov' path' acc' hres ih
    simpa [stripReservedDoc, hres, build_config_ui] using ih
  · intro key value rest ov' path' acc' hres e hentry ih
    simp [stripReservedDoc, hres, build_config_ui, ih, hentry]
  · intro key value rest ov' path' acc' hres fields' hentry ihe ihr
    simp [stripReservedDoc, hres, build_config_ui, ihe, hentry, ihr]

/-- C5: the reserved keys `defaults` and `_self_` never produce a field at
any nesting depth: reflecting a document with every reserved key removed (at
all dict levels) gives exactly the same result as reflecting the original,
and a reserved key at the head of any traversal is skipped outright. -/
theorem reserved_keys_never_reflected :
    (∀ (config : List (String × Value)) (ov : Value) (path : List String)
       (acc : List (String × FieldState)),
       build_config_ui (stripReservedDoc config) ov path acc =
         build_config_ui config ov path acc) ∧
    (∀ (k : String) (v : Value) (rest : List (String × Value)) (ov : Value)
       (path : List String) (acc : List (String × FieldState)),
       reservedKey k = true →
       build_config_ui ((k, v) :: rest) ov path acc = build_config_ui rest ov path acc) := by
  refine ⟨build_config_ui_stripReserved, ?_⟩
  intro k v rest ov path acc h
  simp [build_config_ui, h]

/-- Witness for C5: skipping a concrete `defaults` key and a concrete
`_self_` key nested one dict deep. -/
theorem reserved_keys_never_reflected_witness :
    build_config_ui [("defaults", Value.str "base"), ("lr", Value.int 3)] (.dict []) [] [] =
      build_config_ui [("lr", Value.int 3)] (.dict []) [] [] ∧
    build_config_ui
        (stripReservedDoc [("model", Value.dict [("_self_", Value.null), ("dim", Value.int 8)])])
        (.dict []) [] [] =
      build_config_ui [("model", Value.dict [("_self_", Value.null), ("dim", Value.int 8)])]
        (.dict []) [] [] :=
  ⟨reserved_keys_never_reflected.2 "defaults" (Value.str "base") [("lr", Value.int 3)]
      (.dict []) [] [] rfl,
   reserved_keys_never_reflected.1
      [("model", Value.dict [("_self_", Value.null), ("dim", Value.int 8)])] (.dict []) [] []⟩

theorem build_config_ui_provenance :
    ∀ (config : List (String × Value)) (ov : Value) (path : List String)
      (acc fields : List (String × FieldState)),
      build_config_ui config ov path acc = .ok fields →
      ∀ x, x ∈ fields →
        x ∈ acc ∨ ∃ v c st, build_leaf_field v c = .ok (some st) ∧ x.2 = st := by
  intro config ov path acc
  refine build_config_ui.induct
    (fun config ov path acc => ∀ fields, build_config_ui config ov path acc = .ok fields →
      ∀ x, x ∈ fields →
        x ∈ acc ∨ ∃ v c st, build_leaf_field v c = .ok (some st) ∧ x.2 = st)
    (fun key value ov path acc => ∀ fields, build_config_entry key value ov path acc = .ok fields →
      ∀ x, x ∈ fields →
        x ∈ acc ∨ ∃ v c st, build_leaf_field v c = .ok (some st) ∧ x.2 = st)
    ?_ ?_ ?_ ?_ ?_ ?_ ?_ ?_ config ov path acc
  · intro key d ov' path' acc' ih fields h x hx
    exact ih fields (by simpa [build_config_entry] using h) x hx
  · intro key value ov' path' acc' hnd e hleaf fields h x hx
    rw [build_config_entry_not_dict _ _ _ _ _ hnd, hleaf] at h
    simp at h
  · intro key value ov' path' acc' hnd hleaf fields h x hx
    rw [build_config_entry_not_dict _ _ _ _ _ hnd, hleaf] at h
    rw [show fields = acc' from (Except.ok.inj h).symm] at hx
    exact Or.inl hx
  · intro key value ov' path' acc' hnd st hleaf fields h x hx
    rw [build_config_entry_not_dict _ _ _ _ _ hnd, hleaf] at h
    rw [show fields = pyDictInsert acc' (joinDot (path' ++ [key])) st from (Except.ok.inj h).symm] at hx
    rcases mem_pyDictInsert _ _ _ _ hx with h₁ | h₁
    · exact Or.inl h₁
    · refine Or.inr ⟨value, get_nested_value ov' (path' ++ [key]), st, hleaf, ?_⟩
      rw [h₁]
  · intro ov' path' acc' fields h x hx
    rw [show fields = acc' from (Except.ok.inj h).symm] at hx
    exact Or.inl hx
  · intro key value rest ov' path' acc' hres ih fields h x hx
    rw [show build_config_ui ((key, value) :: rest) ov' path' acc' =
        build_config_ui rest ov' path' acc' by simp [build_config_ui, hres]] at h
    exact ih fields h x hx
  · intro key value rest ov' path' acc' hres e hentry ih fields h x hx
    rw [show build_config_ui ((key, value) :: rest) ov' path' acc' = .error e by
      simp [build_config_ui, hres, hentry]] at h
    simp at h
  · intro key value rest ov' path' acc' hres fields' hentry ihe ihr fields h x hx
    rw [show build_config_ui ((key, value) :: rest) ov' path' acc' =
        build_config_ui rest ov' path' fields' by simp [build_config_ui, hres, hentry]] at h
    rcases ihr fields h x hx with h₁ | h₁
    · rcases ihe fields' hentry x h₁ with h₂ | h₂
      · exact Or.inl h₂
      · exact Or.inr h₂
    · exact Or.inr h₁

theorem build_leaf_field_dflt (v : Value) (c : Option Value) (st : FieldState)
    (h : build_leaf_field v c = .ok (some st)) : st.dfltVal = v := by
  cases v with
  | null => simp [build_leaf_field_null] at h
  | dict d => simp [build_leaf_field_dict] at h
  | bool b =>
    rw [build_leaf_field_bool] at h
    rw [← Option.some.inj (Except.ok.inj h)]
    rfl
  | int n =>
    rw [build_leaf_field_int] at h
    cases hm : (match c with | some cv => py_int cv | none => .ok n) with
    | error e => rw [hm] at h; simp at h
    | ok m =>
      rw [hm] at h
      rw [← Option.some.inj (Except.ok.inj h)]
      rfl
  | float q =>
    rw [build_leaf_field_float] at h
    cases hm : (match c with | some cv => py_float cv | none => .ok q) with
    | error e => rw [hm] at h; simp at h
    | ok r =>
      rw [hm] at h
      rw [← Option.some.inj (Except.ok.inj h)]
      rfl
  | str s =>
    rw [build_leaf_field_str] at h
    rw [← Option.some.inj (Except.ok.inj h)]
    rfl
  | list l =>
    rw [build_leaf_field_list] at h
    rw [← Option.some.inj (Except.ok.inj h)]
    rfl

theorem build_leaf_field_bool_kind (b : Bool) (c : Option Value) (st : FieldState)
    (h : build_leaf_field (.bool b) c = .ok (some st)) : st.kind = FieldKind.bool := by
  rw [build_leaf_field_bool] at h
  rw [← Option.some.inj (Except.ok.inj h)]
  rfl

/-- C4: in any reflected field set, a field whose recorded default is a
boolean has kind `bool` and never kind `int`: the `isinstance(value, bool)`
branch runs before the numeric branch (whose guard also excludes booleans via
`not isinstance(value, bool)`), so boolean leaves such as `{"flag": true}`
always become checkbox fields. -/
theorem bool_leaf_reflects_as_bool
    (config : List (String × Value)) (ov : Value)
    (fields : List (String × FieldState))
    (hok : build_config_ui config ov [] [] = .ok fields) :
    ∀ p st, (p, st) ∈ fields → ∀ b, st.dfltVal = .bool b →
      st.kind = FieldKind.bool ∧ st.kind ≠ FieldKind.int := by
  intro p st hmem b hb
  rcases build_config_ui_provenance config ov [] [] fields hok (p, st) hmem with h | ⟨v, c, st', hl, hst⟩
  · simp at h
  · have hst' : st = st' := hst
    subst hst'
    have hv : v = .bool b := by rw [← build_leaf_field_dflt v c st hl, hb]
    subst hv
    have hk := build_leaf_field_bool_kind b c st hl
    exact ⟨hk, by rw [hk]; intro hc; cases hc⟩

/-- Witness for C4 at the spec's regression example `{"flag": true}`. -/
theorem bool_leaf_reflects_as_bool_witness :
    (FieldState.bool true (Value.bool true)).kind = FieldKind.bool ∧
    (FieldState.bool true (Value.bool true)).kind ≠ FieldKind.int :=
  bool_leaf_reflects_as_bool [("flag", Value.bool true)] (.dict [])
    [("flag", FieldState.bool true (Value.bool true))] rfl
    "flag" (FieldState.bool true (Value.bool true)) (by simp) true rfl

theorem emitted_paths_val_of_leaf (key : String) (value : Value) (path : List String)
    (hnd : ∀ d, value = .dict d → False) (hnn : value ≠ .null) :
    emitted_paths_val key value path = [joinDot (path ++ [key])] := by
  cases value with
  | dict d => exact absurd rfl (hnd d)
  | null => exact absurd rfl hnn
  | bool b => rfl
  | int n => rfl
  | float q => rfl
  | str s => rfl
  | list l => rfl

theorem build_leaf_field_none (v : Value) (c : Option Value)
    (h : build_leaf_field v c = .ok none) : v = .null ∨ ∃ d, v = .dict d := by
  cases v with
  | null => exact Or.inl rfl
  | dict d => exact Or.inr ⟨d, rfl⟩
  | bool b => rw [build_leaf_field_bool] at h; simp at h
  | str s => rw [build_leaf_field_str] at h; simp at h
  | list l => rw [build_leaf_field_list] at h; simp at h
  | int n =>
    rw [build_leaf_field_int] at h
    cases hm : (match c with | some cv => py_int cv | none => .ok n) with
    | error e => rw [hm] at h; simp at h
    | ok m => rw [hm] at h; simp at h
  | float q =>
    rw [build_leaf_field_float] at h
    cases hm : (match c with | some cv => py_float cv | none => .ok q) with
    | error e => rw [hm] at h; simp at h
    | ok r => rw [hm] at h; simp at h

theorem leaf_at_mem_emitted :
    ∀ (config : List (String × Value)) (q : List String) (path : List String) (leaf : Value),
      config_leaf_at config q = some leaf → isLeafValue leaf = true →
      (∀ s ∈ q, reservedKey s = false) →
      joinDot (path ++ q) ∈ emitted_paths config path := by
  intro config q
  refine config_leaf_at.induct
    (fun config q => ∀ path leaf, config_leaf_at config q = some leaf →
      isLeafValue leaf = true → (∀ s ∈ q, reservedKey s = false) →
      joinDot (path ++ q) ∈ emitted_paths config path)
    (fun value q => ∀ path key leaf, value_leaf_at value q = some leaf →
      isLeafValue leaf = true → (∀ s ∈ q, reservedKey s = false) →
      reservedKey key = false →
      joinDot ((path ++ [key]) ++ q) ∈ emitted_paths_val key value path)
    ?_ ?_ ?_ ?_ ?_ ?_ ?_ config q
  · intro v path key leaf h hleaf _ hkey
    have hv : v = leaf := by simpa [value_leaf_at] using h
    subst hv
    have hnd : ∀ d, v = Value.dict d → False := by
      intro d hd; rw [hd] at hleaf; simp [isLeafValue] at hleaf
    have hnn : v ≠ .null := by
      intro hd; rw [hd] at hleaf; simp [isLeafValue] at hleaf
    rw [emitted_paths_val_of_leaf key v path hnd hnn]
    simp
  · intro d q hq ih path key leaf h hleaf hres hkey
    cases q with
    | nil => exact absurd rfl hq
    | cons hd tl =>
      have h' : config_leaf_at d (hd :: tl) = some leaf := h
      exact ih (path ++ [key]) leaf h' hleaf hres
  · intro t head tail hnd path key leaf h hleaf hres hkey
    cases t with
    | dict d => exact absurd rfl (hnd d)
    | null => simp [value_leaf_at] at h
    | bool b => simp [value_leaf_at] at h
    | int n => simp [value_leaf_at] at h
    | float q => simp [value_leaf_at] at h
    | str s => simp [value_leaf_at] at h
    | list l => simp [value_leaf_at] at h
  · intro t path leaf h hleaf hres
    simp [config_leaf_at] at h
  · intro head tail path leaf h hleaf hres
    simp [config_leaf_at] at h
  · intro v rest key q ih path leaf h hleaf hres
    have h' : value_leaf_at v q = some leaf := by
      simpa [config_leaf_at] using h
    have hkey : reservedKey key = false := hres key (List.mem_cons_self _ _)
    have hres' : ∀ s ∈ q, reservedKey s = false := fun s hs =>
      hres s (List.mem_cons_of_mem _ hs)
    have hmem := ih path key leaf h' hleaf hres' hkey
    rw [show path ++ key :: q = (path ++ [key]) ++ q by simp]
    simp only [emitted_paths, hkey, Bool.false_eq_true, if_false]
    exact List.mem_append_left _ hmem
  · intro k v rest key q hne ih path leaf h hleaf hres
    have h' : config_leaf_at rest (key :: q) = some leaf := by
      simpa [config_leaf_at, hne] using h
    have hmem := ih path leaf h' hleaf hres
    by_cases hk : reservedKey k
    · simpa [emitted_paths, hk] using hmem
    · simp only [emitted_paths, hk, Bool.false_eq_true, if_false]
      exact List.mem_append_right _ hmem

theorem value_leaf_at_mem_emitted (value : Value) (q : List String) (path : List String)
    (key : String) (leaf : Value) (h : value_leaf_at value q = some leaf)
    (hleaf : isLeafValue leaf = true) (hres : ∀ s ∈ q, reservedKey s = false) :
    joinDot ((path ++ [key]) ++ q) ∈ emitted_paths_val key value path := by
  cases q with
  | nil =>
    have hv : value = leaf := by simpa [value_leaf_at] using h
    subst hv
    have hnd : ∀ d, value = Value.dict d → False := by
      intro d hd; rw [hd] at hleaf; simp [isLeafValue] at hleaf
    have hnn : value ≠ .null := by
      intro hd; rw [hd] at hleaf; simp [isLeafValue] at hleaf
    rw [emitted_paths_val_of_leaf key value path hnd hnn]
    simp
  | cons hd tl =>
    cases value with
    | dict d =>
      exact leaf_at_mem_emitted d (hd :: tl) (path ++ [key]) leaf h hleaf hres
    | null => simp [value_leaf_at] at h
    | bool b => simp [value_leaf_at] at h
    | int n => simp [value_leaf_at] at h
    | float q' => simp [value_leaf_at] at h
    | str s => simp [value_leaf_at] at h
    | list l => simp [value_leaf_at] at h

theorem build_config_ui_frame :
    ∀ (config : List (String × Value)) (ov : Value) (path : List String)
      (acc fields : List (String × FieldState)),
      build_config_ui config ov path acc = .ok fields →
      ∀ k, k ∉ emitted_paths config path → pyLookup fields k = pyLookup acc k := by
  intro config ov path acc
  refine build_config_ui.induct
    (fun config ov path acc => ∀ fields, build_config_ui config ov path acc = .ok fields →
      ∀ k, k ∉ emitted_paths config path → pyLookup fields k = pyLookup acc k)
    (fun key value ov path acc => ∀ fields, build_config_entry key value ov path acc = .ok fields →
      ∀ k, k ∉ emitted_paths_val key value path → pyLookup fields k = pyLookup acc k)
    ?_ ?_ ?_ ?_ ?_ ?_ ?_ ?_ config ov path acc
  · intro key d ov' path' acc' ih fields h k hk
    exact ih fields (by simpa [build_config_entry] using h) k hk
  · intro key value ov' path' acc' hnd e hleaf fields h k hk
    rw [build_config_entry_not_dict _ _ _ _ _ hnd, hleaf] at h
    simp at h
  · intro key value ov' path' acc' hnd hleaf fields h k hk
    rw [build_config_entry_not_dict _ _ _ _ _ hnd, hleaf] at h
    rw [show fields = acc' from (Except.ok.inj h).symm]
  · intro key value ov' path' acc' hnd st hleaf fields h k hk
    rw [build_config_entry_not_dict _ _ _ _ _ hnd, hleaf] at h
    rw [show fields = pyDictInsert acc' (joinDot (path' ++ [key])) st from (Except.ok.inj h).symm]
    have hnn : value ≠ .null := by
      intro hv
      rw [hv, build_leaf_field_null] at hleaf
      simp at hleaf
    rw [emitted_paths_val_of_leaf key value path' hnd hnn] at hk
    have hne : k ≠ joinDot (path' ++ [key]) := by
      intro he
      exact hk (he ▸ List.mem_singleton_self _)
    exact pyLookup_pyDictInsert_ne _ _ _ _ hne
  · intro ov' path' acc' fields h k hk
    rw [show fields = acc' from (Except.ok.inj h).symm]
  · intro key value rest ov' path' acc' hres ih fields h k hk
    rw [show build_config_ui ((key, value) :: rest) ov' path' acc' =
        build_config_ui rest ov' path' acc' by simp [build_config_ui, hres]] at h
    rw [show emitted_paths ((key, value) :: rest) path' = emitted_paths rest path' by
      simp [emitted_paths, hres]] at hk
    exact ih fields h k hk
  · intro key value rest ov' path' acc' hres e hentry ih fields h k hk
    rw [show build_config_ui ((key, value) :: rest) ov' path' acc' = .error e by
      simp [build_config_ui, hres, hentry]] at h
    simp at h
  · intro key value rest ov' path' acc' hres fields' hentry ihe ihr fields h k hk
    rw [show build_config_ui ((key, value) :: rest) ov' path' acc' =
        build_config_ui rest ov' path' fields' by simp [build_config_ui, hres, hentry]] at h
    rw [show emitted_paths ((key, value) :: rest) path' =
        emitted_paths_val key value path' ++ emitted_paths rest path' by
      simp [emitted_paths, hres]] at hk
    rw [List.mem_append] at hk
    push_neg at hk
    rw [ihr fields h k hk.2]
    exact ihe fields' hentry k hk.1

theorem build_config_ui_leaf_lookup :
    ∀ (config : List (String × Value)) (ov : Value) (path : List String)
      (acc fields : List (String × FieldState)),
      build_config_ui config ov path acc = .ok fields →
      (emitted_paths config path).Nodup →
      ∀ q leaf, config_leaf_at config q = some leaf → isLeafValue leaf = true →
        (∀ s ∈ q, reservedKey s = false) →
        ∃ st, build_leaf_field leaf (get_nested_value ov (path ++ q)) = .ok (some st) ∧
          pyLookup fields (joinDot (path ++ q)) = some st := by
  intro config ov path acc
  refine build_config_ui.induct
    (fun config ov path acc => ∀ fields, build_config_ui config ov path acc = .ok fields →
      (emitted_paths config path).Nodup →
      ∀ q leaf, config_leaf_at config q = some leaf → isLeafValue leaf = true →
        (∀ s ∈ q, reservedKey s = false) →
        ∃ st, build_leaf_field leaf (get_nested_value ov (path ++ q)) = .ok (some st) ∧
          pyLookup fields (joinDot (path ++ q)) = some st)
    (fun key value ov path acc => ∀ fields,
      build_config_entry key value ov path acc = .ok fields →
      (emitted_paths_val key value path).Nodup →
      ∀ q leaf, value_leaf_at value q = some leaf → isLeafValue leaf = true →
        (∀ s ∈ q, reservedKey s = false) →
        ∃ st, build_leaf_field leaf (get_nested_value ov ((path ++ [key]) ++ q)) =
            .ok (some st) ∧
          pyLookup fields (joinDot ((path ++ [key]) ++ q)) = some st)
    ?_ ?_ ?_ ?_ ?_ ?_ ?_ ?_ config ov path acc
  · -- nested dict
    intro key d ov' path' acc' ih fields h hnd q leaf hq hleaf hres
    cases q with
    | nil =>
      have hl : Value.dict d = leaf := by simpa [value_leaf_at] using hq
      rw [← hl] at hleaf
      simp [isLeafValue] at hleaf
    | cons hd tl =>
      have hq' : config_leaf_at d (hd :: tl) = some leaf := by
        simpa [value_leaf_at] using hq
      exact ih fields (by simpa [build_config_entry] using h)
        (by simpa [emitted_paths_val] using hnd) (hd :: tl) leaf hq' hleaf hres
  · -- leaf raising a conversion error: traversal cannot have succeeded
    intro key value ov' path' acc' hnd e hleafE fields h hndup q leaf hq hleaf hres
    rw [build_config_entry_not_dict _ _ _ _ _ hnd, hleafE] at h
    simp at h
  · -- value producing no field: it is null, so no leaf path resolves to it
    intro key value ov' path' acc' hnd hleafE fields h hndup q leaf hq hleaf hres
    rcases build_leaf_field_none _ _ hleafE with hv | ⟨d, hv⟩
    · subst hv
      cases q with
      | nil =>
        have hl : Value.null = leaf := by simpa [value_leaf_at] using hq
        rw [← hl] at hleaf
        simp [isLeafValue] at hleaf
      | cons hd tl => simp [value_leaf_at] at hq
    · exact absurd hv (by intro hc; exact hnd d hc)
  · -- a leaf field inserted at the joined path
    intro key value ov' path' acc' hnd st₀ hleafE fields h hndup q leaf hq hleaf hres
    rw [build_config_entry_not_dict _ _ _ _ _ hnd, hleafE] at h
    rw [show fields = pyDictInsert acc' (joinDot (path' ++ [key])) st₀ from
      (Except.ok.inj h).symm]
    cases q with
    | nil =>
      have hl : value = leaf := by simpa [value_leaf_at] using hq
      subst hl
      refine ⟨st₀, ?_, ?_⟩
      · simpa using hleafE
      · simpa using pyLookup_pyDictInsert_self acc' (joinDot (path' ++ [key])) st₀
    | cons hd tl =>
      cases value with
      | dict d => exact absurd rfl (hnd d)
      | null => simp [value_leaf_at] at hq
      | bool b => simp [value_leaf_at] at hq
      | int n => simp [value_leaf_at] at hq
      | float q' => simp [value_leaf_at] at hq
      | str s => simp [value_leaf_at] at hq
      | list l => simp [value_leaf_at] at hq
  · -- empty document
    intro ov' path' acc' fields h hndup q leaf hq hleaf hres
    cases q with
    | nil => simp [config_leaf_at] at hq
    | cons hd tl => simp [config_leaf_at] at hq
  · -- reserved key skipped
    intro key value rest ov' path' acc' hresK ih fields h hndup q leaf hq hleaf hres
    rw [show build_config_ui ((key, value) :: rest) ov' path' acc' =
        build_config_ui rest ov' path' acc' by simp [build_config_ui, hresK]] at h
    rw [show emitted_paths ((key, value) :: rest) path' = emitted_paths rest path' by
      simp [emitted_paths, hresK]] at hndup
    cases q with
    | nil => simp [config_leaf_at] at hq
    | cons k₀ q' =>
      have hne : key ≠ k₀ := by
        intro he
        have := hres k₀ (List.mem_cons_self _ _)
        rw [← he, hresK] at this
        cases this
      have hq' : config_leaf_at rest (k₀ :: q') = some leaf := by
        simpa [config_leaf_at, hne] using hq
      exact ih fields h hndup (k₀ :: q') leaf hq' hleaf hres
  · -- a leaf whose processing raised: traversal cannot have succeeded
    intro key value rest ov' path' acc' hresK e hentry ih fields h hndup q leaf hq hleaf hres
    rw [show build_config_ui ((key, value) :: rest) ov' path' acc' = .error e by
      simp [build_config_ui, hresK, hentry]] at h
    simp at h
  · -- successful step followed by the rest of the traversal
    intro key value rest ov' path' acc' hresK fields' hentry ihe ihr fields h hndup q leaf hq
      hleaf hres
    rw [show build_config_ui ((key, value) :: rest) ov' path' acc' =
        build_config_ui rest ov' path' fields' by simp [build_config_ui, hresK, hentry]] at h
    rw [show emitted_paths ((key, value) :: rest) path' =
        emitted_paths_val key value path' ++ emitted_paths rest path' by
      simp [emitted_paths, hresK]] at hndup
    rw [List.nodup_append] at hndup
    obtain ⟨hnd1, hnd2, hdisj⟩ := hndup
    cases q with
    | nil => simp [config_leaf_at] at hq
    | cons k₀ q' =>
      by_cases hkey : key = k₀
      · subst hkey
        have hq' : value_leaf_at value q' = some leaf := by
          simpa [config_leaf_at] using hq
        have hres' : ∀ s ∈ q', reservedKey s = false := fun s hs =>
          hres s (List.mem_cons_of_mem _ hs)
        obtain ⟨st, hbuild, hlook⟩ := ihe fields' hentry hnd1 q' leaf hq' hleaf hres'
        have hmem := value_leaf_at_mem_emitted value q' path' key leaf hq' hleaf hres'
        have hnotin : joinDot ((path' ++ [key]) ++ q') ∉ emitted_paths rest path' :=
          fun hin => hdisj hmem hin
        have hfr := build_config_ui_frame rest ov' path' fields' fields h _ hnotin
        rw [show path' ++ key :: q' = (path' ++ [key]) ++ q' by simp]
        exact ⟨st, hbuild, by rw [hfr]; exact hlook⟩
      · have hq' : config_leaf_at rest (k₀ :: q') = some leaf := by
          simpa [config_leaf_at, hkey] using hq
        exact ihr fields h hnd2 (k₀ :: q') leaf hq' hleaf hres

theorem spinSetValue_eq (n : Int) (h₁ : -2147483648 ≤ n) (h₂ : n ≤ 2147483647) :
    spinSetValue n = n := by
  unfold spinSetValue
  omega

theorem dspinSetValue_eq (q : Rat) (h₁ : -((10 : Rat) ^ 10) ≤ q) (h₂ : q ≤ (10 : Rat) ^ 10)
    (h₃ : (q * 1000000).den = 1) : dspinSetValue q = q := by
  unfold dspinSetValue
  rw [min_eq_right h₂, max_eq_right h₁]
  have h4 : ((q * 1000000).num : Rat) = q * 1000000 := by
    rw [Rat.den_eq_one_iff] at h₃
    exact h₃
  rw [← h4, round_intCast, h4]
  rw [mul_div_cancel_right₀ q (by norm_num)]

/-- C2 (amended): `currentValue` resolution is by presence, not truthiness.
For every base document, override document and leaf path (well-formed:
pairwise-distinct dot-joined field paths, no reserved segment), the reflected
field at that path records the base leaf as its default; when
`_get_nested_value` finds an override value at every segment — including
falsy values such as `false`, `0` or the empty string — and that value has
the base leaf's kind and fits the editing widget (integers within the 32-bit
spin-box range, floats within ±1e10 with at most six decimals), the field's
current state shows exactly that override value; when some segment is absent,
the current state falls back to the (widget-representable) base default. -/
theorem override_presence_resolution
    (base : List (String × Value)) (ov : Value) (q : List String) (leaf : Value)
    (fields : List (String × FieldState))
    (hok : build_config_ui base ov [] [] = .ok fields)
    (hnd : (emitted_paths base []).Nodup)
    (hleafat : config_leaf_at base q = some leaf)
    (hleaf : isLeafValue leaf = true)
    (hres : ∀ s ∈ q, reservedKey s = false) :
    ∃ st, pyLookup fields (joinDot q) = some st ∧ st.dfltVal = leaf ∧
      (∀ ovv, get_nested_value ov q = some ovv → sameValueKind leaf ovv = true →
        inWidgetRange ovv = true → representsValue st ovv = true) ∧
      (get_nested_value ov q = none → inWidgetRange leaf = true →
        representsValue st leaf = true) := by
  obtain ⟨st, hbuild, hlook⟩ :=
    build_config_ui_leaf_lookup base ov [] [] fields hok hnd q leaf hleafat hleaf hres
  rw [List.nil_append] at hbuild hlook
  refine ⟨st, hlook, build_leaf_field_dflt _ _ _ hbuild, ?_, ?_⟩
  · intro ovv hovv hkind hrange
    rw [hovv] at hbuild
    cases leaf with
    | null => simp [isLeafValue] at hleaf
    | dict d => simp [isLeafValue] at hleaf
    | bool b =>
      cases ovv with
      | bool b' =>
        rw [build_leaf_field_bool] at hbuild
        rw [← Option.some.inj (Except.ok.inj hbuild)]
        simp [representsValue, pyBool]
      | null => simp [sameValueKind] at hkind
      | int m => simp [sameValueKind] at hkind
      | float r => simp [sameValueKind] at hkind
      | str s => simp [sameValueKind] at hkind
      | list l => simp [sameValueKind] at hkind
      | dict d => simp [sameValueKind] at hkind
    | int n =>
      cases ovv with
      | int m =>
        rw [build_leaf_field_int] at hbuild
        have hb2 : Except.ok (some (FieldState.int (spinSetValue m) (Value.int n))) =
            Except.ok (some st) := hbuild
        rw [← Option.some.inj (Except.ok.inj hb2)]
        simp only [inWidgetRange, decide_eq_true_eq] at hrange
        simp [representsValue, spinSetValue_eq m hrange.1 hrange.2]
      | null => simp [sameValueKind] at hkind
      | bool b' => simp [sameValueKind] at hkind
      | float r => simp [sameValueKind] at hkind
      | str s => simp [sameValueKind] at hkind
      | list l => simp [sameValueKind] at hkind
      | dict d => simp [sameValueKind] at hkind
    | float qq =>
      cases ovv with
      | float r =>
        rw [build_leaf_field_float] at hbuild
        have hb2 : Except.ok (some (FieldState.float (dspinSetValue r) (Value.float qq))) =
            Except.ok (some st) := hbuild
        rw [← Option.some.inj (Except.ok.inj hb2)]
        simp only [inWidgetRange, decide_eq_true_eq] at hrange
        simp [representsValue, dspinSetValue_eq r hrange.1 hrange.2.1 hrange.2.2]
      | null => simp [sameValueKind] at hkind
      | bool b' => simp [sameValueKind] at hkind
      | int m => simp [sameValueKind] at hkind
      | str s => simp [sameValueKind] at hkind
      | list l => simp [sameValueKind] at hkind
      | dict d => simp [sameValueKind] at hkind
    | str s =>
      cases ovv with
      | str s' =>
        rw [build_leaf_field_str] at hbuild
        rw [← Option.some.inj (Except.ok.inj hbuild)]
        simp [representsValue, pyStr]
      | null => simp [sameValueKind] at hkind
      | bool b' => simp [sameValueKind] at hkind
      | int m => simp [sameValueKind] at hkind
      | float r => simp [sameValueKind] at hkind
      | list l => simp [sameValueKind] at hkind
      | dict d => simp [sameValueKind] at hkind
    | list l =>
      cases ovv with
      | list l' =>
        rw [build_leaf_field_list] at hbuild
        rw [← Option.some.inj (Except.ok.inj hbuild)]
        simp [representsValue]
      | null => simp [sameValueKind] at hkind
      | bool b' => simp [sameValueKind] at hkind
      | int m => simp [sameValueKind] at hkind
      | float r => simp [sameValueKind] at hkind
      | str s => simp [sameValueKind] at hkind
      | dict d => simp [sameValueKind] at hkind
  · intro habsent hrange
    rw [habsent] at hbuild
    cases leaf with
    | null => simp [isLeafValue] at hleaf
    | dict d => simp [isLeafValue] at hleaf
    | bool b =>
      rw [build_leaf_field_bool] at hbuild
      rw [← Option.some.inj (Except.ok.inj hbuild)]
      simp [representsValue]
    | int n =>
      rw [build_leaf_field_int] at hbuild
      have hb2 : Except.ok (some (FieldState.int (spinSetValue n) (Value.int n))) =
          Except.ok (some st) := hbuild
      rw [← Option.some.inj (Except.ok.inj hb2)]
      simp only [inWidgetRange, decide_eq_true_eq] at hrange
      simp [representsValue, spinSetValue_eq n hrange.1 hrange.2]
    | float qq =>
      rw [build_leaf_field_float] at hbuild
      have hb2 : Except.ok (some (FieldState.float (dspinSetValue qq) (Value.float qq))) =
          Except.ok (some st) := hbuild
      rw [← Option.some.inj (Except.ok.inj hb2)]
      simp only [inWidgetRange, decide_eq_true_eq] at hrange
      simp [representsValue, dspinSetValue_eq qq hrange.1 hrange.2.1 hrange.2.2]
    | str s =>
      rw [build_leaf_field_str] at hbuild
      rw [← Option.some.inj (Except.ok.inj hbuild)]
      simp [representsValue, pyStr]
    | list l =>
      rw [build_leaf_field_list] at hbuild
      rw [← Option.some.inj (Except.ok.inj hbuild)]
      simp [representsValue]

/-- Witness for C2 at a concrete base `{"a": 1, "f": true}` with the falsy
overrides `{"a": 0, "f": false}`: the reflected field at path `a` shows the
override `0`, not the default `1`. -/
theorem override_presence_resolution_witness :
    ∃ st, pyLookup [("a", FieldState.int 0 (Value.int 1)),
        ("f", FieldState.bool false (Value.bool true))] (joinDot ["a"]) = some st ∧
      st.dfltVal = Value.int 1 ∧
      (∀ ovv, get_nested_value (.dict [("a", Value.int 0), ("f", Value.bool false)]) ["a"] =
          some ovv →
        sameValueKind (Value.int 1) ovv = true → inWidgetRange ovv = true →
        representsValue st ovv = true) ∧
      (get_nested_value (.dict [("a", Value.int 0), ("f", Value.bool false)]) ["a"] = none →
        inWidgetRange (Value.int 1) = true → representsValue st (Value.int 1) = true) :=
  override_presence_resolution [("a", Value.int 1), ("f", Value.bool true)]
    (.dict [("a", Value.int 0), ("f", Value.bool false)]) ["a"] (Value.int 1)
    [("a", FieldState.int 0 (Value.int 1)), ("f", FieldState.bool false (Value.bool true))]
    rfl (by decide) rfl rfl (by decide)

/-- C2 as frozen fails on the code: with base `{"a": 0}` and cached override
`{"a": 2^40}`, the override is present at every segment of the path, yet the
reflected field's current value is the spin-box-clamped `2147483647`, not the
override value `2^40`. -/
theorem override_presence_resolution_counterexample :
    get_nested_value (.dict [("a", Value.int 1099511627776)]) ["a"] =
      some (Value.int 1099511627776) ∧
    build_config_ui [("a", Value.int 0)] (.dict [("a", Value.int 1099511627776)]) [] [] =
      .ok [("a", FieldState.int 2147483647 (Value.int 0))] ∧
    representsValue (FieldState.int 2147483647 (Value.int 0)) (Value.int 1099511627776) =
      false :=
  ⟨rfl, rfl, by decide⟩
